import Mathlib

/-!
# Verification of the go-sawyer HTTP client core

Shallow embedding of the `go-sawyer` repository: the request construction and
body attachment code of `client/request.go`, together with the media-type /
codec-registry / response-classification pipeline exercised by
`request_test.go`. Parts of the pipeline whose source is not in the repository
snapshot (the `mediatype` package, the `Response` type and the `Do` method,
and query resolution) are modelled from the specification, pinned by the
behavior the repository's own tests assert.
-/

set_option autoImplicit false

namespace Sawyer

/-! ## Test value types (from `request_test.go`) -/

/-- `TestUser` from `request_test.go`: fields `Id` (json "id") and `Login`
(json "login"). -/
structure TestUser where
  id : Int
  login : String
deriving DecidableEq, Repr

/-- `TestError` from `request_test.go`: field `Message` (json "message"). -/
structure TestError where
  message : String
deriving DecidableEq, Repr

/-- Universe of decodable / encodable values used as decode targets: the
success-target shape and the declared error-target shape of the tests. -/
inductive Val where
  | user : TestUser → Val
  | apiError : TestError → Val
deriving DecidableEq, Repr

/-- Primitive JSON field values appearing in the tests' bodies. -/
inductive JVal where
  | jnum : Int → JVal
  | jstr : String → JVal
deriving DecidableEq, Repr

/-- A JSON object body: an ordered list of field name / value pairs. -/
abbrev JDoc := List (String × JVal)

/-! ## JSON codec (modelled from the spec: default "json" codec;
decode populates the fields of the target present in the document). -/

/-- Apply one JSON field to a `TestUser` target, in place, as Go's
`encoding/json` populates matching struct fields. -/
def applyUserField (u : TestUser) : String × JVal → TestUser
  | ("id", JVal.jnum n) => { u with id := n }
  | ("login", JVal.jstr s) => { u with login := s }
  | _ => u

/-- Apply one JSON field to a `TestError` target. -/
def applyErrorField (e : TestError) : String × JVal → TestError
  | ("message", JVal.jstr s) => { e with message := s }
  | _ => e

/-- Decode a JSON document into a `TestUser` target, field by field. -/
def decodeUserDoc (t : TestUser) (d : JDoc) : TestUser :=
  d.foldl applyUserField t

/-- Decode a JSON document into a `TestError` target, field by field. -/
def decodeErrorDoc (t : TestError) (d : JDoc) : TestError :=
  d.foldl applyErrorField t

/-- A codec: paired encode / decode functions for one format token
(spec §2 "Codec Registry", §6 "Codec collaborators"). -/
structure Codec where
  encode : Val → Except String JDoc
  decode : Val → JDoc → Except String Val

/-- Modelled from the spec: the default JSON codec shipped with the core.
Encoding records every field of the value; decoding populates the target's
fields from the fields present in the document. -/
def jsonCodec : Codec where
  encode v :=
    match v with
    | Val.user u => Except.ok [("id", JVal.jnum u.id), ("login", JVal.jstr u.login)]
    | Val.apiError e => Except.ok [("message", JVal.jstr e.message)]
  decode target d :=
    match target with
    | Val.user t => Except.ok (Val.user (decodeUserDoc t d))
    | Val.apiError t => Except.ok (Val.apiError (decodeErrorDoc t d))

/-- Modelled from the spec: the process-wide codec registry, mapping format
tokens to codecs; ships the JSON codec registered under "json". -/
def codecs : List (String × Codec) := [("json", jsonCodec)]

/-- Two values have the same shape (the spec's "target is of a compatible
shape" side condition of the round-trip law). -/
def sameShape : Val → Val → Bool
  | Val.user _, Val.user _ => true
  | Val.apiError _, Val.apiError _ => true
  | _, _ => false

/-! ## MediaType (modelled from the spec §4.1, §6) -/

/-- Split a character list at every occurrence of `sep`. -/
def splitOnChar (sep : Char) : List Char → List (List Char)
  | [] => [[]]
  | c :: rest =>
    let r := splitOnChar sep rest
    if c = sep then
      [] :: r
    else
      match r with
      | [] => [[c]]
      | g :: gs => (c :: g) :: gs

/-- Modelled from the spec: a parsed media type
`type/subtype[+suffix][;params]` (spec §3): base type, full subtype string,
the `format` registry lookup key — the suffix after the last `+` when
present, otherwise the bare subtype (spec §6 format-token extraction
rule) — and the parameter mapping. -/
structure MediaType where
  typ : String
  subFull : String
  format : String
  params : List (String × String)
deriving DecidableEq, Repr

/-- Modelled from the spec: parse the `;`-separated parameter segments of a
media type into a key/value mapping, `none` on a malformed segment. -/
def parseParams : List (List Char) → Option (List (String × String))
  | [] => some []
  | p :: rest =>
    match splitOnChar '=' (p.dropWhile (fun c => c = ' ')) with
    | [k, v] =>
      if k.isEmpty then
        none
      else
        match parseParams rest with
        | none => none
        | some ps => some ((String.mk k, String.mk v) :: ps)
    | _ => none

/-- Modelled from the spec: `mediatype.Parse`, failing on strings that are
not of the form `type/subtype[+suffix][;params]` with both the type and the
subtype nonempty and every parameter a well-formed `key=value` pair. -/
def parseMediaType (raw : String) : Except String MediaType :=
  match splitOnChar ';' raw.data with
  | [] => Except.error ("mime: no media type in " ++ raw)
  | body :: paramParts =>
    match splitOnChar '/' body with
    | [tcs, scs] =>
      if tcs.isEmpty || scs.isEmpty then
        Except.error ("mime: no token found in " ++ raw)
      else
        match parseParams paramParts with
        | none => Except.error ("mime: malformed parameter in " ++ raw)
        | some ps =>
          let pieces := splitOnChar '+' scs
          let fmtcs := pieces.getLastD scs
          Except.ok ⟨String.mk tcs, String.mk scs, String.mk fmtcs, ps⟩
    | _ => Except.error ("mime: expected slash in " ++ raw)

/-- Canonical re-render of a parsed media type (`MediaType.String()`). -/
def MediaType.render (m : MediaType) : String :=
  m.params.foldl (fun acc p => acc ++ ";" ++ p.1 ++ "=" ++ p.2) (m.typ ++ "/" ++ m.subFull)

/-! ## Response classification (modelled from the spec §4.4, pinned by the
tests of `request_test.go`) -/

/-- A transport response as handed to the core: status, content-type header,
and the body stream (already in document form for the codec). -/
structure HttpResponse where
  statusCode : Nat
  contentType : String
  body : JDoc
deriving DecidableEq, Repr

/-- Modelled from the spec: the sawyer `Response`: status, captured
response-level error (transport / decode-unavailable / decode), the
`BodyClosed` flag, and the still-attached body stream. -/
structure Response where
  statusCode : Nat
  responseError : Option String
  bodyClosed : Bool
  body : JDoc
deriving DecidableEq, Repr

/-- `Response.IsError()`: true iff a response-level error was captured. -/
def Response.isError (r : Response) : Bool :=
  r.responseError.isSome

/-- `Response.Error()`: the captured response-level error message. -/
def Response.errorString (r : Response) : String :=
  r.responseError.getD ""

/-- Modelled from the spec (§4.4 step 2): the decode target of the active
path: the declared error target on the error path (status ≥ 400), the
caller's success target on the success path (status < 400); `none` models a
nil target. -/
def activeTarget (res : HttpResponse) (output apierr : Option Val) : Option Val :=
  if 400 ≤ res.statusCode then apierr else output

/-- Modelled from the spec: the response-handling half of `Request.Do` for a
verb call, given the transport response, the caller's success target and the
declared error target (`none` models a nil argument). Per §4.4, the status
classifies the response and selects the active path's target; when that
target is supplied, the content type is parsed, the codec is looked up by
format token, and the body is decoded into it, the stream being closed on
every decode-path exit; when the active path has no target, decoding is
skipped entirely and the body is left open for the caller. Returns the
response together with the resulting success target and error target. -/
def doRequest (reg : List (String × Codec)) (res : HttpResponse)
    (output apierr : Option Val) : Response × Option Val × Option Val :=
  match activeTarget res output apierr with
  | none => (⟨res.statusCode, none, false, res.body⟩, output, apierr)
  | some tgt =>
    match parseMediaType res.contentType with
    | Except.error e => (⟨res.statusCode, some e, true, res.body⟩, output, apierr)
    | Except.ok mt =>
      match List.lookup mt.format reg with
      | none =>
        (⟨res.statusCode, some ("No decoder found for format " ++ mt.format), true, res.body⟩,
          output, apierr)
      | some codec =>
        match codec.decode tgt res.body with
        | Except.error e => (⟨res.statusCode, some e, true, res.body⟩, output, apierr)
        | Except.ok newVal =>
          if 400 ≤ res.statusCode then
            (⟨res.statusCode, none, true, res.body⟩, output, some newVal)
          else
            (⟨res.statusCode, none, true, res.body⟩, some newVal, apierr)

/-! ## Request construction and body attachment (`client/request.go`) -/

/-- The relevant surface of a `mediatype.MediaType` as `SetBody` uses it:
`Encode` serializing a value to a byte buffer, and `String()` rendering the
canonical media-type string. -/
structure WireMediaType where
  encode : Val → Except String (List Nat)
  render : String

/-- The outgoing request state touched by `client/request.go`: the
`ContentLength` field, the optional body buffer, and the request headers. -/
structure ClientRequest where
  contentLength : Int
  body : Option (List Nat)
  headers : List (String × String)
deriving DecidableEq, Repr

/-- Look a header up by exact key. -/
def getHeader (hs : List (String × String)) (k : String) : Option String :=
  List.lookup k hs

/-- `Request.SetBody` from `client/request.go` lines 63-71: encodes the
input via the media type; on failure returns the error with the request
untouched; on success sets `ContentLength` to the buffer length and installs
the buffer as the body. (The source sets nothing else: in particular it does
not touch the request headers.) -/
def setBody (mtype : WireMediaType) (r : ClientRequest) (input : Val) :
    ClientRequest × Option String :=
  match mtype.encode input with
  | Except.error e => (r, some e)
  | Except.ok buf =>
    ({ r with contentLength := (buf.length : Int), body := some buf }, none)

/-- The underlying `http.Request` as far as `NewRequest` is concerned. -/
structure HttpRequest where
  method : String
  url : String
deriving DecidableEq, Repr

/-- The sawyer `Request` built by `NewRequest`: the declared API-error
target and the wrapped (possibly absent) `http.Request`. -/
structure SawyerRequest where
  apiError : Val
  httpRequest : Option HttpRequest
deriving DecidableEq, Repr

/-- `Client.NewRequest` from `client/request.go` lines 25-33, with the
client's URL resolution (`resolveReferenceString`) and Go's
`http.NewRequest` passed as function parameters: when resolution fails the
result is `(nil, err)`; otherwise the sawyer request wrapping the outcome of
`http.NewRequest` is returned together with that call's error. -/
def newRequest (resolve : String → Except String String)
    (httpNewRequest : String → Option HttpRequest × Option String)
    (apierr : Val) (rawurl : String) : Option SawyerRequest × Option String :=
  match resolve rawurl with
  | Except.error e => (none, some e)
  | Except.ok u =>
    let hr := httpNewRequest u
    (some ⟨apierr, hr.fst⟩, hr.snd)

/-! ## Query parameters (modelled from the spec §3, §6: ordered map with
`Set` replacing the value for a key; merge precedence request > client
default, last `Set` wins per key) -/

/-- A query: an ordered list of key / value pairs. -/
abbrev Query := List (String × String)

/-- `url.Values.Set`: replace every binding of `k` by the single value `v`,
appending the pair when `k` was absent. -/
def qset : Query → String → String → Query
  | [], k, v => [(k, v)]
  | p :: rest, k, v =>
    if p.1 = k then (k, v) :: qset rest k v else p :: qset rest k v

/-- `url.Values.Get`: the first value bound to `k`, if any. -/
def qget : Query → String → Option String
  | [], _ => none
  | p :: rest, k => if p.1 = k then some p.2 else qget rest k

/-- The value of the last `Set` call for key `k` in a sequence of
`Set (key, value)` calls, if any. -/
def lastSet : List (String × String) → String → Option String
  | [], _ => none
  | p :: rest, k =>
    match lastSet rest k with
    | some v => some v
    | none => if p.1 = k then some p.2 else none

/-- Apply a sequence of `Set` calls to a query, in order. -/
def applySets (q : Query) (sets : List (String × String)) : Query :=
  sets.foldl (fun acc p => qset acc p.1 p.2) q

/-- Modelled from the spec: the final outgoing query of an executed request:
the client-default query, overridden key-by-key by the request URL's base
query string, then by the request-level `Set` calls in order. -/
def resolveQuery (clientQ baseQ : Query) (sets : List (String × String)) : Query :=
  applySets (applySets clientQ baseQ) sets

/-! ## Concrete scenarios from `request_test.go` -/

/-- Body of the 404 response of `TestErrorResponse`. -/
def notFoundBody : JDoc := [("message", JVal.jstr "not found")]

/-- The 404 response of `TestErrorResponse`. -/
def notFoundHttp : HttpResponse := ⟨404, "application/json", notFoundBody⟩

/-- Body of the 200 response of `TestSuccessfulGet`. -/
def okBody : JDoc := [("id", JVal.jnum 1), ("login", JVal.jstr "sawyer")]

/-- The 200 response of `TestSuccessfulGet`. -/
def okHttp : HttpResponse := ⟨200, "application/json", okBody⟩

/-- The 200 response of `TestSuccessfulGetWithoutDecoder`, carrying an
unregistered format. -/
def booyaHttp : HttpResponse := ⟨200, "application/booya+booya", okBody⟩

/-- A fresh success target, as `&TestUser{}` in the tests. -/
def freshUser : Val := Val.user ⟨0, ""⟩

/-- A fresh declared error target, as `&TestError{}` in the tests. -/
def freshApiError : Val := Val.apiError ⟨""⟩

/-- A media type whose encoder always succeeds with a two-byte buffer,
standing for a successful `application/json` encoding. -/
def demoWire : WireMediaType := ⟨fun _ => Except.ok [123, 125], "application/json"⟩

/-- A media type whose encoder always fails. -/
def failWire : WireMediaType := ⟨fun _ => Except.error "encode failed", "application/json"⟩

/-- A freshly constructed outgoing request: no body, no headers. -/
def demoReq : ClientRequest := ⟨0, none, []⟩

/-- A URL resolver failing on one input, as `resolveReferenceString`. -/
def demoResolve : String → Except String String :=
  fun s => if s = "bad" then Except.error "resolve failed" else Except.ok s

/-- A stand-in for Go's `http.NewRequest`: fails (returning no request) on
one input, succeeds elsewhere. -/
def demoHttpNew : String → Option HttpRequest × Option String :=
  fun u => if u = "broken" then (none, some "http request failed") else (some ⟨"GET", u⟩, none)

/-- The client-default query of the test setup: base `?a=1&b=1` then
`client.Query.Set("b","2")` and `client.Query.Set("c","3")`. -/
def clientDefaults : Query := qset (qset [("a", "1"), ("b", "1")] "b" "2") "c" "3"

/-- The request's base query string `?d=4` of `TestResolveRequestQuery`. -/
def requestBase : Query := [("d", "4")]

/-- The request-level `Set` calls of `TestResolveRequestQuery`. -/
def requestSets : List (String × String) := [("b", "4"), ("c", "3"), ("d", "2"), ("e", "1")]

/-! ## Helper lemmas on the query model -/

theorem qget_qset_self (q : Query) (k v : String) : qget (qset q k v) k = some v := by
  induction q with
  | nil => simp [qset, qget]
  | cons p rest ih =>
    by_cases h : p.1 = k
    · simp [qset, h, qget]
    · simp [qset, h, qget, ih]

theorem qget_qset_ne (q : Query) (k k' v : String) (h : k' ≠ k) :
    qget (qset q k' v) k = qget q k := by
  induction q with
  | nil => simp [qset, qget, h]
  | cons p rest ih =>
    by_cases hp : p.1 = k'
    · simp [qset, hp, qget, h, ih, hp.symm ▸ h]
    · simp only [qset, if_neg hp, qget]
      by_cases hk : p.1 = k
      · simp [hk]
      · simp [hk, ih]

theorem qget_applySets_of_lastSet_none (sets : List (String × String)) (q : Query)
    (k : String) (h : lastSet sets k = none) : qget (applySets q sets) k = qget q k := by
  induction sets generalizing q with
  | nil => rfl
  | cons p rest ih =>
    have hrest : lastSet rest k = none := by
      cases hl : lastSet rest k with
      | none => rfl
      | some v => simp [lastSet, hl] at h
    have hp : p.1 ≠ k := by
      intro hpk
      simp [lastSet, hrest, hpk] at h
    calc qget (applySets (qset q p.1 p.2) rest) k
        = qget (qset q p.1 p.2) k := ih _ hrest
      _ = qget q k := qget_qset_ne _ _ _ _ hp

theorem qget_applySets_of_lastSet_some (sets : List (String × String)) (q : Query)
    (k v : String) (h : lastSet sets k = some v) : qget (applySets q sets) k = some v := by
  induction sets generalizing q with
  | nil => simp [lastSet] at h
  | cons p rest ih =>
    cases hl : lastSet rest k with
    | some w =>
      have hw : w = v := by simp [lastSet, hl] at h; exact h
      subst hw
      exact ih (qset q p.1 p.2) hl
    | none =>
      have hp : p.1 = k ∧ p.2 = v := by
        simp [lastSet, hl] at h
        by_cases hpk : p.1 = k
        · simpa [hpk] using And.intro hpk h
        · simp [hpk] at h
      obtain ⟨hk, hv⟩ := hp
      subst hk
      subst hv
      have h1 : qget (applySets (qset q p.1 p.2) rest) p.1 = qget (qset q p.1 p.2) p.1 :=
        qget_applySets_of_lastSet_none rest _ p.1 hl
      exact h1.trans (qget_qset_self q p.1 p.2)

/-! ## Claim theorems -/

/-- C1 (counterexample): the claim "for every response with status ≥ 400,
`IsError()` returns true regardless of whether the body was decoded" is
false on the code: on the 404 response of `TestErrorResponse` (status 404,
content type `application/json`, body decoding successfully into the
declared error target) `IsError()` returns false — exactly what the test
asserts at line 178. -/
theorem isError_false_on_404_decoded :
    (doRequest codecs notFoundHttp (some freshUser) (some freshApiError)).fst.isError
      = false := by
  rfl

/-- C1 (amended): for every response with status ≥ 400 whose content type
resolves to a registered codec and whose body decodes successfully into the
declared error target, `IsError()` is false — `IsError()` reports
transport / decode errors, not status classification; the status stays
visible on the response and the error target is populated. -/
theorem isError_false_when_error_target_decodes (reg : List (String × Codec))
    (res : HttpResponse) (output : Option Val) (errTgt : Val) (mt : MediaType)
    (codec : Codec) (newErr : Val)
    (hp : parseMediaType res.contentType = Except.ok mt)
    (hl : List.lookup mt.format reg = some codec)
    (hs : 400 ≤ res.statusCode)
    (hd : codec.decode errTgt res.body = Except.ok newErr) :
    doRequest reg res output (some errTgt)
      = (⟨res.statusCode, none, true, res.body⟩, output, some newErr) := by
  have ht : activeTarget res output (some errTgt) = some errTgt := by
    simp [activeTarget, hs]
  simp [doRequest, ht, hp, hl, hd, hs]

/-- C1 (witness): the amended statement instantiated on the 404 scenario of
`TestErrorResponse`. -/
theorem isError_false_when_error_target_decodes_witness :
    (doRequest codecs notFoundHttp (some freshUser) (some freshApiError)).fst.isError = false
    ∧ (doRequest codecs notFoundHttp (some freshUser) (some freshApiError)).snd.snd
        = some (Val.apiError ⟨"not found"⟩) := by
  have h := isError_false_when_error_target_decodes codecs notFoundHttp (some freshUser)
    freshApiError ⟨"application", "json", "json", []⟩ jsonCodec (Val.apiError ⟨"not found"⟩)
    (by rfl) (by rfl) (by decide) (by rfl)
  exact ⟨by rw [h]; rfl, by rw [h]⟩

/-- C2: for every response whose content type parses to a media type whose
format token has no registered codec, when the active path's decode target
is supplied, `IsError()` is true and `Error()` is exactly "No decoder found
for format " followed by the format token — regardless of status. -/
theorem isError_and_message_on_missing_codec (reg : List (String × Codec))
    (res : HttpResponse) (output apierr : Option Val) (tgt : Val) (mt : MediaType)
    (ht : activeTarget res output apierr = some tgt)
    (hp : parseMediaType res.contentType = Except.ok mt)
    (hl : List.lookup mt.format reg = none) :
    (doRequest reg res output apierr).fst.isError = true
    ∧ (doRequest reg res output apierr).fst.errorString
        = "No decoder found for format " ++ mt.format := by
  simp [doRequest, ht, hp, hl, Response.isError, Response.errorString]

/-- C2 (witness): the 200 response of `TestSuccessfulGetWithoutDecoder`
with content type `application/booya+booya` and a supplied success
target. -/
theorem isError_and_message_on_missing_codec_witness :
    (doRequest codecs booyaHttp (some freshUser) (some freshApiError)).fst.isError = true
    ∧ (doRequest codecs booyaHttp (some freshUser) (some freshApiError)).fst.errorString
        = "No decoder found for format booya" := by
  have h := isError_and_message_on_missing_codec codecs booyaHttp (some freshUser)
    (some freshApiError) freshUser ⟨"application", "booya+booya", "booya", []⟩
    (by rfl) (by rfl) (by rfl)
  exact ⟨h.1, h.2.trans (by rfl)⟩

/-- C3: for every verb call, when the active path (error path for status
≥ 400, success path otherwise) has no decode target supplied, decoding is
skipped entirely — no response error, body left open and untouched, both
targets unchanged — and when the active path's target is supplied the body
stream is closed after classification on every path. -/
theorem bodyClosed_iff_active_target_supplied (reg : List (String × Codec))
    (res : HttpResponse) (output apierr : Option Val) :
    (activeTarget res output apierr = none →
      doRequest reg res output apierr = (⟨res.statusCode, none, false, res.body⟩, output, apierr))
    ∧ ∀ tgt : Val, activeTarget res output apierr = some tgt →
        (doRequest reg res output apierr).fst.bodyClosed = true := by
  refine ⟨fun h0 => by simp [doRequest, h0], fun tgt ht => ?_⟩
  cases hp : parseMediaType res.contentType with
  | error e => simp [doRequest, ht, hp]
  | ok mt =>
    cases hl : List.lookup mt.format reg with
    | none => simp [doRequest, ht, hp, hl]
    | some codec =>
      cases hd : codec.decode tgt res.body with
      | error e => simp [doRequest, ht, hp, hl, hd]
      | ok newVal =>
        by_cases hs : 400 ≤ res.statusCode
        · simp [doRequest, ht, hp, hl, hd, hs]
        · simp [doRequest, ht, hp, hl, hd, hs]

/-- C3 (witness): on the 200 scenario with a nil output
(`TestSuccessfulGetWithoutOutput`) decode is skipped and the body stays
open; with the success target supplied (`TestSuccessfulGet`), and on the
404 with the declared error target supplied (`TestErrorResponse`), the body
is closed. -/
theorem bodyClosed_iff_active_target_supplied_witness :
    doRequest codecs okHttp none (some freshApiError)
      = (⟨200, none, false, okBody⟩, none, some freshApiError)
    ∧ (doRequest codecs okHttp (some freshUser) (some freshApiError)).fst.bodyClosed = true
    ∧ (doRequest codecs notFoundHttp (some freshUser) (some freshApiError)).fst.bodyClosed
        = true :=
  ⟨(bodyClosed_iff_active_target_supplied codecs okHttp none (some freshApiError)).1 rfl,
   (bodyClosed_iff_active_target_supplied codecs okHttp (some freshUser)
      (some freshApiError)).2 freshUser rfl,
   (bodyClosed_iff_active_target_supplied codecs notFoundHttp (some freshUser)
      (some freshApiError)).2 freshApiError rfl⟩

/-- C4 (code bug): `SetBody` of `client/request.go`, after a successful
encode, installs the body buffer and sets the content length, but leaves
the request headers untouched: the Content-Type header is NOT set to
`mediaType.String()`, although `TestSuccessfulPost` (line 123) asserts the
outgoing request carries it. -/
theorem setBody_sets_no_contentType_header :
    setBody demoWire demoReq (Val.user ⟨0, "sawyer"⟩) = (⟨2, some [123, 125], []⟩, none)
    ∧ (setBody demoWire demoReq (Val.user ⟨0, "sawyer"⟩)).fst.headers = demoReq.headers
    ∧ getHeader (setBody demoWire demoReq (Val.user ⟨0, "sawyer"⟩)).fst.headers "Content-Type"
        = none := by
  exact ⟨rfl, rfl, rfl⟩

/-- C5: for every response with status < 400 whose content type parses to a
media type with a registered codec, and a supplied output target that the
body decodes into successfully, the verb call yields no response error
(`IsError()` false), the populated success target, an unchanged error
target, and a closed body. -/
theorem success_decode_populates_output (reg : List (String × Codec))
    (res : HttpResponse) (out : Val) (apierr : Option Val) (mt : MediaType)
    (codec : Codec) (newOut : Val)
    (hp : parseMediaType res.contentType = Except.ok mt)
    (hl : List.lookup mt.format reg = some codec)
    (hs : res.statusCode < 400)
    (hd : codec.decode out res.body = Except.ok newOut) :
    doRequest reg res (some out) apierr
      = (⟨res.statusCode, none, true, res.body⟩, some newOut, apierr) := by
  have hns : ¬ 400 ≤ res.statusCode := by omega
  have ht : activeTarget res (some out) apierr = some out := by
    simp [activeTarget, hns]
  simp [doRequest, ht, hp, hl, hd, hns]

/-- C5 (witness): the 200 `application/json` scenario of
`TestSuccessfulGet`: id and login are populated, `IsError()` is false. -/
theorem success_decode_populates_output_witness :
    doRequest codecs okHttp (some freshUser) (some freshApiError)
      = (⟨200, none, true, okBody⟩, some (Val.user ⟨1, "sawyer"⟩), some freshApiError) :=
  success_decode_populates_output codecs okHttp freshUser (some freshApiError)
    ⟨"application", "json", "json", []⟩ jsonCodec (Val.user ⟨1, "sawyer"⟩)
    (by rfl) (by rfl) (by decide) (by rfl)

/-- C6: on the 404 scenario of `TestErrorResponse` (status 404, content type
`application/json`, body with message "not found", fresh success and error
targets supplied), the error path decodes into the declared error target,
populating its message field with "not found", while the success target is
left unchanged. -/
theorem error_response_decodes_into_apierr :
    doRequest codecs notFoundHttp (some freshUser) (some freshApiError)
      = (⟨404, none, true, notFoundBody⟩, some freshUser, some (Val.apiError ⟨"not found"⟩)) := by
  rfl

/-- C7: for every format registered in the codec registry, decoding the
document produced by encoding a value into a compatible-shape target
restores the original value (encode / decode round-trip law). -/
theorem codec_roundTrip (fmt : String) (codec : Codec)
    (hreg : List.lookup fmt codecs = some codec) (v t : Val)
    (hshape : sameShape t v = true) (doc : JDoc)
    (henc : codec.encode v = Except.ok doc) :
    codec.decode t doc = Except.ok v := by
  have hc : codec = jsonCodec := by
    cases hb : fmt == "json" with
    | true =>
      simp [codecs, List.lookup, hb] at hreg
      exact hreg.symm
    | false =>
      simp [codecs, List.lookup, hb] at hreg
  subst hc
  cases v with
  | user u =>
    cases t with
    | user t0 =>
      obtain ⟨uid, ulogin⟩ := u
      obtain ⟨tid, tlogin⟩ := t0
      simp [jsonCodec] at henc
      rw [← henc]
      rfl
    | apiError _ => simp [sameShape] at hshape
  | apiError e =>
    cases t with
    | user _ => simp [sameShape] at hshape
    | apiError t0 =>
      obtain ⟨msg⟩ := e
      obtain ⟨tmsg⟩ := t0
      simp [jsonCodec] at henc
      rw [← henc]
      rfl

/-- C7 (witness): a JSON round trip of a concrete user value through the
registered "json" codec. -/
theorem codec_roundTrip_witness :
    jsonCodec.decode (Val.user ⟨0, ""⟩) [("id", JVal.jnum 3), ("login", JVal.jstr "abc")]
      = Except.ok (Val.user ⟨3, "abc"⟩) :=
  codec_roundTrip "json" jsonCodec (by rfl) (Val.user ⟨3, "abc"⟩) (Val.user ⟨0, ""⟩)
    (by rfl) [("id", JVal.jnum 3), ("login", JVal.jstr "abc")] (by rfl)

/-- C8: for every media type and input whose encoding fails, `SetBody`
returns the encode error and leaves the request completely unchanged: body
unset, content length untouched, headers untouched. -/
theorem setBody_encode_failure_leaves_request (mtype : WireMediaType)
    (r : ClientRequest) (input : Val) (e : String)
    (h : mtype.encode input = Except.error e) :
    setBody mtype r input = (r, some e) := by
  simp [setBody, h]

/-- C8 (witness): a failing encoder leaves the fresh request unchanged. -/
theorem setBody_encode_failure_leaves_request_witness :
    setBody failWire demoReq (Val.user ⟨0, ""⟩) = (demoReq, some "encode failed") :=
  setBody_encode_failure_leaves_request failWire demoReq (Val.user ⟨0, ""⟩)
    "encode failed" (by rfl)

/-- C9: in the final outgoing query, every key set at request level carries
the value of the last request-level `Set` call for it (winning over client
defaults and the request's base query string, repeated `Set` replacing),
while a key never set at request level and absent from the base query
string keeps its client-default binding. -/
theorem resolveQuery_last_set_wins (clientQ baseQ : Query)
    (sets : List (String × String)) (k : String) :
    (∀ v, lastSet sets k = some v → qget (resolveQuery clientQ baseQ sets) k = some v)
    ∧ (lastSet sets k = none → lastSet baseQ k = none →
        qget (resolveQuery clientQ baseQ sets) k = qget clientQ k) := by
  constructor
  · intro v hv
    exact qget_applySets_of_lastSet_some sets _ k v hv
  · intro hs hb
    calc qget (applySets (applySets clientQ baseQ) sets) k
        = qget (applySets clientQ baseQ) k := qget_applySets_of_lastSet_none sets _ k hs
      _ = qget clientQ k := qget_applySets_of_lastSet_none baseQ _ k hb

/-- C9 (witness): the scenario of `TestResolveRequestQuery`: client
defaults a=1, b=2, c=3, base query d=4, request-level sets b=4, c=3, d=2,
e=1; the final query has b=4 and d=2 (last `Set` wins) and a=1 (client
default survives). -/
theorem resolveQuery_last_set_wins_witness :
    qget (resolveQuery clientDefaults requestBase requestSets) "b" = some "4"
    ∧ qget (resolveQuery clientDefaults requestBase requestSets) "d" = some "2"
    ∧ qget (resolveQuery clientDefaults requestBase requestSets) "a" = some "1" :=
  ⟨(resolveQuery_last_set_wins clientDefaults requestBase requestSets "b").1 "4" (by rfl),
   (resolveQuery_last_set_wins clientDefaults requestBase requestSets "d").1 "2" (by rfl),
   ((resolveQuery_last_set_wins clientDefaults requestBase requestSets "a").2
     (by rfl) (by rfl)).trans (by rfl)⟩

/-- C10: `NewRequest` returns `(nil, err)` when URL resolution fails; when
resolution succeeds it always returns a non-nil request wrapping whatever
`http.NewRequest` produced, paired with that call's (possibly non-nil)
error. -/
theorem newRequest_resolution_and_construction
    (resolve : String → Except String String)
    (httpNewRequest : String → Option HttpRequest × Option String)
    (apierr : Val) (rawurl : String) :
    (∀ e, resolve rawurl = Except.error e →
      newRequest resolve httpNewRequest apierr rawurl = (none, some e))
    ∧ (∀ u, resolve rawurl = Except.ok u →
      (newRequest resolve httpNewRequest apierr rawurl).fst
          = some ⟨apierr, (httpNewRequest u).fst⟩
        ∧ (newRequest resolve httpNewRequest apierr rawurl).snd
          = (httpNewRequest u).snd) := by
  constructor
  · intro e he
    simp [newRequest, he]
  · intro u hu
    simp [newRequest, hu]

/-- C10 (witness): resolution failure yields `(nil, error)`; a failing
underlying `http.NewRequest` still yields a non-nil sawyer request carrying
the error. -/
theorem newRequest_resolution_and_construction_witness :
    newRequest demoResolve demoHttpNew freshApiError "bad" = (none, some "resolve failed")
    ∧ ((newRequest demoResolve demoHttpNew freshApiError "broken").fst
          = some ⟨freshApiError, (demoHttpNew "broken").fst⟩
        ∧ (newRequest demoResolve demoHttpNew freshApiError "broken").snd
          = (demoHttpNew "broken").snd) :=
  ⟨(newRequest_resolution_and_construction demoResolve demoHttpNew freshApiError "bad").1
      "resolve failed" (by rfl),
   (newRequest_resolution_and_construction demoResolve demoHttpNew freshApiError "broken").2
      "broken" (by rfl)⟩

